import Mathlib

/-!
Verification development for the DANE task-orchestration core.

The definitions below are a shallow embedding of the Python sources:
  dane/state.py                (ProcState)
  dane/handlers/ESHandler.py   (updateTaskState, _queue_task, run, retry,
                                assignTask, callback, getAssignedTasks)
  dane/base_classes.py         (base_worker: _validate_received_data,
                                _check_task_dependencies,
                                _inspect_then_run_task,
                                _start_processing_task)
  DANE/tasks.py                (Task constructor and Task.assign)

The Elasticsearch store is modelled as the set of Task records routed to a
single Document (all claims concern one Document and its tasks); the message
transport is modelled by a ghost event log recording state updates, task
creations, publishes and entries into ESHandler.run.  Exceptions are modelled
by an explicit error component; publish failures are injected through a
parameter pubFail mapping a task id to the optional exception text raised by
queue.publish.
-/

namespace DANE

/-- Lifecycle codes from dane/state.py (class ProcState, an IntEnum). -/
inductive ProcState where
  | SUCCESS
  | CREATED
  | QUEUED
  | TASK_RESET
  | BAD_REQUEST
  | ACCESS_DENIED
  | NOT_FOUND
  | ALREADY_EXISTS
  | UNFINISHED_DEPENDENCY
  | NO_ROUTE_TO_QUEUE
  | ERROR
  | ERROR_INVALID_INPUT
  | ERROR_PROXY
deriving DecidableEq, Repr

/-- The integer value of each code, exactly as assigned in dane/state.py. -/
def ProcState.value : ProcState → Nat
  | .SUCCESS => 200
  | .CREATED => 201
  | .QUEUED => 102
  | .TASK_RESET => 205
  | .BAD_REQUEST => 400
  | .ACCESS_DENIED => 403
  | .NOT_FOUND => 404
  | .ALREADY_EXISTS => 409
  | .UNFINISHED_DEPENDENCY => 412
  | .NO_ROUTE_TO_QUEUE => 422
  | .ERROR => 500
  | .ERROR_INVALID_INPUT => 502
  | .ERROR_PROXY => 503

/-- A persisted task record: the fields of the ES task document that the
orchestration logic reads and writes (DANE/tasks.py holds key, state, msg;
the state is stored as its integer code). -/
structure TaskRec where
  _id : String
  key : String
  state : Nat
  msg : String
deriving DecidableEq, Repr

/-- Ghost log of externally visible effects: ES field updates, ES create
operations, queue publishes, and entries into ESHandler.run (recorded at the
top of run, before any state inspection). -/
inductive Event where
  | updateTask (task_id : String) (state : Nat) (msg : String)
  | createTask (task_id : String) (key : String) (state : Nat)
  | publish (task_id : String)
  | runInvoked (task_id : String)
deriving DecidableEq, Repr

/-- The store restricted to one Document: its id, its routed task records,
and the ghost event log. -/
structure ESState where
  doc_id : String
  tasks : List TaskRec
  log : List Event
deriving DecidableEq, Repr

/-- Exceptions raised by the handler paths the claims exercise. -/
inductive DaneError where
  | taskExistsError
  | taskAssignedError
  | documentExistsError
  | valueError
  | publishError (msg : String)
deriving DecidableEq, Repr

/-- ESHandler.updateTaskState: field update of task.state and task.msg for
the record with the given id, leaving every other record untouched. -/
def updateTaskState (st : ESState) (task_id : String) (state : Nat)
    (message : String) : ESState :=
  { st with
    tasks := st.tasks.map fun t =>
      if t._id = task_id then { t with state := state, msg := message } else t
    log := st.log ++ [Event.updateTask task_id state message] }

/-- ESHandler.taskFromTaskId: look the task up by id; none models the
TaskExistsError raised when the search returns no hit. -/
def taskFromTaskId (st : ESState) (task_id : String) : Option TaskRec :=
  st.tasks.find? fun t => t._id = task_id

/-- ESHandler._queue_task: persist state QUEUED with message Queued, then
publish to the transport; when the publish raises (pubFail gives the
exception text) the state is set to ERROR with that text and the exception
is re-raised. -/
def queue_task (pubFail : String → Option String) (st : ESState)
    (task : TaskRec) : ESState × Option DaneError :=
  let st1 := updateTaskState st task._id ProcState.QUEUED.value "Queued"
  match pubFail task._id with
  | none => ({ st1 with log := st1.log ++ [Event.publish task._id] }, none)
  | some e => (updateTaskState st1 task._id ProcState.ERROR.value e,
               some (DaneError.publishError e))

/-- ESHandler.run: queue the task when its state is CREATED or one of
TASK_RESET, UNFINISHED_DEPENDENCY, ERROR_INVALID_INPUT, ERROR_PROXY;
otherwise do nothing.  The runInvoked ghost event is recorded on entry. -/
def run (pubFail : String → Option String) (st0 : ESState)
    (task_id : String) : ESState × Option DaneError :=
  let st := { st0 with log := st0.log ++ [Event.runInvoked task_id] }
  match taskFromTaskId st task_id with
  | none => (st, some DaneError.taskExistsError)
  | some task =>
    if task.state = ProcState.CREATED.value then
      queue_task pubFail st task
    else if [ProcState.TASK_RESET.value,
             ProcState.UNFINISHED_DEPENDENCY.value,
             ProcState.ERROR_INVALID_INPUT.value,
             ProcState.ERROR_PROXY.value].contains task.state then
      queue_task pubFail st task
    else
      (st, none)

/-- ESHandler.retry: queue the task unless its state is QUEUED or SUCCESS,
or unconditionally when force is set. -/
def retry (pubFail : String → Option String) (st : ESState)
    (task_id : String) (force : Bool) : ESState × Option DaneError :=
  match taskFromTaskId st task_id with
  | none => (st, some DaneError.taskExistsError)
  | some task =>
    if ¬([ProcState.QUEUED.value,
          ProcState.SUCCESS.value].contains task.state) ∨ force then
      queue_task pubFail st task
    else
      (st, none)

/-- The deterministic assignment identity of ESHandler.assignTask, in the
source sha1 of the UTF-8 bytes of document_id + task.key; the digest is
modelled as the concatenated string itself: like the sha1 hex digest it is a
deterministic function of the concatenation alone (idealised as collision
free). -/
def task_id_hash (document_id key : String) : String :=
  document_id ++ key

/-- ESHandler.assignTask for a Task freshly constructed with the given key
(DANE/tasks.py Task.assign delegates here once _id is unset and an api is
present): check the document exists, compute the identity hash, attempt the
create-or-conflict index write (a conflict raises TaskAssignedError and
changes nothing), and on success store the record with state CREATED and
message Created then call run on it. -/
def assignTask (pubFail : String → Option String) (st : ESState)
    (key : String) (document_id : String) : ESState × Option DaneError :=
  if document_id ≠ st.doc_id then
    (st, some DaneError.documentExistsError)
  else
    let _id := task_id_hash document_id key
    if st.tasks.any (fun t => t._id = _id) then
      (st, some DaneError.taskAssignedError)
    else
      let st1 : ESState :=
        { st with
          tasks := st.tasks ++
            [{ _id := _id, key := key,
               state := ProcState.CREATED.value, msg := "Created" }]
          log := st.log ++
            [Event.createTask _id key ProcState.CREATED.value] }
      run pubFail st1 _id

/-- A worker reply as consumed by ESHandler.callback: the state code, the
message, and (read only on the UNFINISHED_DEPENDENCY branch) the list of
dependency task keys.  A dependency may also arrive as a full task
descriptor object in the source; the claims only exercise the key form. -/
structure WorkerResponse where
  state : Nat
  message : String
  dependencies : List String := []
deriving DecidableEq, Repr

/-- The dependency-creation loop of ESHandler.callback: for each listed key
a Task is constructed (DANE/tasks.py uppercases the key and rejects an empty
one with ValueError), assigned to the document (assign ends in run), and run
once more explicitly.  Any exception aborts the loop and propagates to the
enclosing try of callback. -/
def assign_dependencies (pubFail : String → Option String) (st : ESState)
    (deps : List String) : ESState × Option DaneError :=
  deps.foldl
    (fun acc dep =>
      match acc with
      | (st, some e) => (st, some e)
      | (st, none) =>
        if dep = "" then (st, some DaneError.valueError)
        else
          let key := dep.toUpper
          match assignTask pubFail st key st.doc_id with
          | (st1, some e) => (st1, some e)
          | (st1, none) => run pubFail st1 (task_id_hash st.doc_id key))
    (st, none)

/-- The sibling-triggering condition of the cascade loop in
ESHandler.callback: the record is not the reporting task and its snapshot
state is CREATED, ERROR_INVALID_INPUT or ERROR_PROXY, or it is
UNFINISHED_DEPENDENCY while the reported state differs from
UNFINISHED_DEPENDENCY. -/
def cascadeTrigger (reported : Nat) (task_id : String) (t : TaskRec) : Bool :=
  t._id ≠ task_id ∧
    ([ProcState.CREATED.value,
      ProcState.ERROR_INVALID_INPUT.value,
      ProcState.ERROR_PROXY.value].contains t.state ∨
     (t.state = ProcState.UNFINISHED_DEPENDENCY.value ∧
      reported ≠ ProcState.UNFINISHED_DEPENDENCY.value))

/-- The cascade loop of ESHandler.callback: iterate over the snapshot of the
assigned tasks and call run on every triggering sibling.  An exception from
run aborts the remainder of the loop (it is caught by the enclosing try of
callback). -/
def cascade (pubFail : String → Option String) (st : ESState)
    (snapshot : List TaskRec) (task_id : String) (reported : Nat) :
    ESState × Option DaneError :=
  snapshot.foldl
    (fun acc at_ =>
      match acc with
      | (st, some e) => (st, some e)
      | (st, none) =>
        if cascadeTrigger reported task_id at_ then run pubFail st at_._id
        else (st, none))
    (st, none)

/-- ESHandler.callback: look up the reporting task (a missing task means the
raised TaskExistsError is caught and logged: no effect), always persist the
reported state and message, on UNFINISHED_DEPENDENCY create and run the
listed dependency tasks, stop on any other non-SUCCESS state, and otherwise
run the cascade over a fresh snapshot of the assigned tasks.  Every
exception is caught at this boundary, so callback itself returns only the
resulting store. -/
def callback (pubFail : String → Option String) (st0 : ESState)
    (task_id : String) (resp : WorkerResponse) : ESState :=
  match taskFromTaskId st0 task_id with
  | none => st0
  | some _ =>
    let st1 := updateTaskState st0 task_id resp.state resp.message
    if resp.state = ProcState.UNFINISHED_DEPENDENCY.value then
      match assign_dependencies pubFail st1 resp.dependencies with
      | (st2, some _) => st2
      | (st2, none) => (cascade pubFail st2 st2.tasks task_id resp.state).1
    else if resp.state ≠ ProcState.SUCCESS.value then
      st1
    else
      (cascade pubFail st1 st1.tasks task_id resp.state).1

/-!
Worker runtime (dane/base_classes.py, class base_worker).
-/

/-- The inner loop of base_worker._check_task_dependencies: iterate over the
declared depends_on keys with the running done flag and the accumulated
missing list.  A key with no assigned task is always appended to the missing
list and refutes doneness; an assigned key is inspected only while doneness
has not yet been refuted, and refutes it when some assigned task of that key
is not in state SUCCESS. -/
def check_deps_loop (assigned : List TaskRec) (task_keys : List String) :
    List String → Bool → List String → Bool × List String
  | [], done, deps => (done, deps)
  | dep :: rest, done, deps =>
    if ¬(task_keys.contains dep) then
      check_deps_loop assigned task_keys rest false (deps ++ [dep])
    else if done then
      if assigned.any (fun t => t.key = dep ∧ t.state ≠ ProcState.SUCCESS.value)
      then check_deps_loop assigned task_keys rest false deps
      else check_deps_loop assigned task_keys rest true deps
    else
      check_deps_loop assigned task_keys rest done deps

/-- base_worker._check_task_dependencies: given the statically declared
depends_on list and the tasks assigned to the document, return the doneness
flag and the list of missing dependency keys.  With an empty depends_on the
loop body is skipped entirely. -/
def check_task_dependencies (depends_on : List String)
    (assigned : List TaskRec) : Bool × List String :=
  if depends_on.length > 0 then
    check_deps_loop assigned (assigned.map (fun t => t.key)) depends_on true []
  else
    (true, [])

/-- The shape of a received queue message body, abstracting the JSON text:
it may fail to parse, parse to a non-object (whose missing keys method
raises AttributeError inside _validate_received_data), or parse to an
object, in which case what matters is whether the task and document sections
are present and whether constructing the Task and Document objects from them
raises TypeError. -/
inductive ReceivedBody where
  | notJson
  | jsonNonObject
  | jsonObject (hasTask : Bool) (hasDocument : Bool) (constructionOk : Bool)
deriving DecidableEq, Repr

/-- Outcome of base_worker._validate_received_data: the parsed object when
it is a JSON object with both a task and a document key, invalid (None is
returned) when the text is not JSON or a key is absent, and an escaping
AttributeError when the text parses to a non-object. -/
inductive ValidationOutcome where
  | valid
  | invalid
  | raised
deriving DecidableEq, Repr

/-- base_worker._validate_received_data. -/
def validate_received_data : ReceivedBody → ValidationOutcome
  | .notJson => .invalid
  | .jsonNonObject => .raised
  | .jsonObject hasTask hasDocument _ =>
    if hasTask ∧ hasDocument then .valid else .invalid

/-- The externally visible broker actions of one message-handling step:
whether the message was acknowledged, whether it was negatively
acknowledged, the reply published to the reply-to destination, and whether a
worker-callback thread was started. -/
structure AmqpEffects where
  ack : Bool
  nack : Bool
  reply : Option WorkerResponse
  spawnedCallback : Bool
deriving DecidableEq, Repr

/-- base_worker._ack_and_reply: publish the response and acknowledge. -/
def ack_and_reply (response : WorkerResponse) : AmqpEffects :=
  { ack := true, nack := false, reply := some response,
    spawnedCallback := false }

/-- base_worker._inspect_then_run_task: validate the body (an invalid body
raises KeyError and a non-object body raises AttributeError, both of which
reach the generic exception handler that replies state ERROR), construct the
Task and Document objects (TypeError replies state BAD_REQUEST), check the
declared dependencies (unmet dependencies reply state UNFINISHED_DEPENDENCY
with the missing keys), and otherwise start the callback thread.  Every path
except the spawn acknowledges with a reply; no path negatively acknowledges
or requeues. -/
def inspect_then_run_task (depends_on : List String) (body : ReceivedBody)
    (assigned : List TaskRec) : AmqpEffects :=
  match validate_received_data body with
  | .invalid =>
    ack_and_reply
      { state := ProcState.ERROR.value
        message := "Unhandled error: Incompleted task specification, require both task and document information" }
  | .raised =>
    ack_and_reply
      { state := ProcState.ERROR.value
        message := "Unhandled error: AttributeError" }
  | .valid =>
    match body with
    | .jsonObject _ _ constructionOk =>
      if ¬constructionOk then
        ack_and_reply
          { state := ProcState.BAD_REQUEST.value
            message := "Invalid format, unable to proceed" }
      else
        match check_task_dependencies depends_on assigned with
        | (done, dependencies) =>
          if ¬done then
            ack_and_reply
              { state := ProcState.UNFINISHED_DEPENDENCY.value
                message := "Unfinished dependencies"
                dependencies := dependencies }
          else
            { ack := false, nack := false, reply := none,
              spawnedCallback := true }
    | _ =>
      ack_and_reply
        { state := ProcState.ERROR.value
          message := "Unhandled error: unreachable" }

/-- Outcome of the worker-supplied callback as observed by
base_worker._start_processing_task: a returned response, a raised
RefuseJobException, or any other raised exception with its text. -/
inductive CallbackOutcome where
  | succeeds (response : WorkerResponse)
  | refuses
  | fails (errText : String)
deriving DecidableEq, Repr

/-- base_worker._start_processing_task: run the worker callback and either
acknowledge with its response, negatively acknowledge without a reply on
RefuseJobException, or acknowledge with a state ERROR reply on any other
exception.  The function performs no store operation, so the task store is
returned unchanged. -/
def start_processing_task (st : ESState) (outcome : CallbackOutcome) :
    ESState × AmqpEffects :=
  match outcome with
  | .succeeds response => (st, ack_and_reply response)
  | .refuses =>
    (st, { ack := false, nack := true, reply := none,
           spawnedCallback := false })
  | .fails errText =>
    (st, ack_and_reply
      { state := ProcState.ERROR.value
        message := "Unhandled worker error: " ++ errText })

/-- A transport in which no publish fails. -/
def noPubFail : String → Option String := fun _ => none

/-!
Characterisation lemmas for the handler operations.
-/

lemma find?_id_eq (st : ESState) (task_id : String) (t : TaskRec)
    (hfind : taskFromTaskId st task_id = some t) : t._id = task_id := by
  have := List.find?_some hfind
  simpa using this

lemma queue_task_ok (pubFail : String → Option String) (st : ESState)
    (t : TaskRec) (hpub : pubFail t._id = none) :
    queue_task pubFail st t =
      ({ st with
         tasks := st.tasks.map fun u =>
           if u._id = t._id then
             { u with state := ProcState.QUEUED.value, msg := "Queued" }
           else u
         log := st.log ++
           [Event.updateTask t._id ProcState.QUEUED.value "Queued",
            Event.publish t._id] }, none) := by
  simp [queue_task, updateTaskState, hpub]

lemma queue_task_fail (pubFail : String → Option String) (st : ESState)
    (t : TaskRec) (e : String) (hpub : pubFail t._id = some e) :
    queue_task pubFail st t =
      ({ st with
         tasks := st.tasks.map fun u =>
           if u._id = t._id then
             { u with state := ProcState.ERROR.value, msg := e }
           else u
         log := st.log ++
           [Event.updateTask t._id ProcState.QUEUED.value "Queued",
            Event.updateTask t._id ProcState.ERROR.value e] },
       some (DaneError.publishError e)) := by
  simp only [queue_task, updateTaskState, hpub]
  refine Prod.ext ?_ rfl
  refine congrArg₂ (fun a b => ESState.mk st.doc_id a b) ?_ (by simp)
  rw [List.map_map]
  refine List.map_congr_left ?_
  intro u _
  by_cases h : u._id = t._id <;> simp [h, Function.comp]

lemma run_found (pubFail : String → Option String) (st : ESState)
    (task_id : String) (t : TaskRec)
    (hfind : taskFromTaskId st task_id = some t) :
    run pubFail st task_id =
      if t.state = ProcState.CREATED.value ∨
         [ProcState.TASK_RESET.value, ProcState.UNFINISHED_DEPENDENCY.value,
          ProcState.ERROR_INVALID_INPUT.value,
          ProcState.ERROR_PROXY.value].contains t.state then
        queue_task pubFail
          { st with log := st.log ++ [Event.runInvoked task_id] } t
      else
        ({ st with log := st.log ++ [Event.runInvoked task_id] }, none) := by
  simp only [run]
  rw [show taskFromTaskId
        { st with log := st.log ++ [Event.runInvoked task_id] } task_id
      = taskFromTaskId st task_id from rfl, hfind]
  by_cases h1 : t.state = ProcState.CREATED.value
  · simp [h1]
  · by_cases h2 : [ProcState.TASK_RESET.value,
        ProcState.UNFINISHED_DEPENDENCY.value,
        ProcState.ERROR_INVALID_INPUT.value,
        ProcState.ERROR_PROXY.value].contains t.state
    · simp [h1, h2]
    · simp [h1, h2]

lemma updateTaskState_ids (st : ESState) (tid : String) (s : Nat)
    (m : String) :
    (updateTaskState st tid s m).tasks.map TaskRec._id =
      st.tasks.map TaskRec._id := by
  simp only [updateTaskState, List.map_map]
  refine List.map_congr_left fun u _ => ?_
  by_cases h : u._id = tid <;> simp [h, Function.comp]

lemma run_nofail (st : ESState) (tid : String)
    (hid : tid ∈ st.tasks.map TaskRec._id) :
    (run noPubFail st tid).2 = none ∧
    (run noPubFail st tid).1.doc_id = st.doc_id ∧
    (run noPubFail st tid).1.tasks.map TaskRec._id =
      st.tasks.map TaskRec._id ∧
    ∀ x, (Event.runInvoked x ∈ (run noPubFail st tid).1.log ↔
      (Event.runInvoked x ∈ st.log ∨ x = tid)) := by
  obtain ⟨u, hu⟩ : ∃ u, taskFromTaskId st tid = some u := by
    obtain ⟨v, hv, hvid⟩ := List.mem_map.mp hid
    have : (st.tasks.find? fun w => w._id = tid).isSome :=
      List.find?_isSome.mpr ⟨v, hv, by simp [hvid]⟩
    exact Option.isSome_iff_exists.mp this
  have huid : u._id = tid := find?_id_eq st tid u hu
  rw [run_found noPubFail st tid u hu]
  by_cases hc : u.state = ProcState.CREATED.value ∨
      [ProcState.TASK_RESET.value, ProcState.UNFINISHED_DEPENDENCY.value,
       ProcState.ERROR_INVALID_INPUT.value,
       ProcState.ERROR_PROXY.value].contains u.state
  · rw [if_pos hc, queue_task_ok noPubFail _ u rfl]
    refine ⟨rfl, rfl, ?_, ?_⟩
    · simp only [List.map_map]
      refine List.map_congr_left fun v _ => ?_
      by_cases h : v._id = u._id <;> simp [h, Function.comp]
    · intro x
      simp [huid, or_assoc]
  · rw [if_neg hc]
    exact ⟨rfl, rfl, rfl, fun x => by simp⟩

lemma cascade_nofail (snapshot : List TaskRec) (st : ESState)
    (task_id : String) (reported : Nat)
    (hsub : ∀ u ∈ snapshot, u._id ∈ st.tasks.map TaskRec._id) :
    (cascade noPubFail st snapshot task_id reported).2 = none ∧
    (cascade noPubFail st snapshot task_id reported).1.doc_id = st.doc_id ∧
    (cascade noPubFail st snapshot task_id reported).1.tasks.map
      TaskRec._id = st.tasks.map TaskRec._id ∧
    ∀ x, (Event.runInvoked x ∈
        (cascade noPubFail st snapshot task_id reported).1.log ↔
      (Event.runInvoked x ∈ st.log ∨
       ∃ u ∈ snapshot, u._id = x ∧
         cascadeTrigger reported task_id u = true)) := by
  induction snapshot generalizing st with
  | nil =>
    refine ⟨rfl, rfl, rfl, fun x => ?_⟩
    simp [cascade]
  | cons u us ih =>
    by_cases ht : cascadeTrigger reported task_id u = true
    · have hid : u._id ∈ st.tasks.map TaskRec._id := hsub u (by simp)
      have hrun := run_nofail st u._id hid
      have hpair : run noPubFail st u._id =
          ((run noPubFail st u._id).1, none) := by
        rw [← hrun.1]
      have hunf : cascade noPubFail st (u :: us) task_id reported =
          cascade noPubFail (run noPubFail st u._id).1 us task_id
            reported := by
        simp only [cascade, List.foldl_cons]
        rw [if_pos ht, hpair]
      rw [hunf]
      have ihr := ih (run noPubFail st u._id).1
        (fun v hv => hrun.2.2.1 ▸ hsub v (by simp [hv]))
      refine ⟨ihr.1, ihr.2.1.trans hrun.2.1,
        ihr.2.2.1.trans hrun.2.2.1, fun x => ?_⟩
      rw [ihr.2.2.2 x, hrun.2.2.2 x]
      constructor
      · rintro ((hin | hx) | ⟨v, hv, hvx, hvt⟩)
        · exact Or.inl hin
        · exact Or.inr ⟨u, by simp, hx.symm, ht⟩
        · exact Or.inr ⟨v, by simp [hv], hvx, hvt⟩
      · rintro (hin | ⟨v, hv, hvx, hvt⟩)
        · exact Or.inl (Or.inl hin)
        · rcases List.mem_cons.mp hv with rfl | hv2
          · exact Or.inl (Or.inr hvx.symm)
          · exact Or.inr ⟨v, hv2, hvx, hvt⟩
    · have hunf : cascade noPubFail st (u :: us) task_id reported =
          cascade noPubFail st us task_id reported := by
        simp only [cascade, List.foldl_cons]
        rw [if_neg ht]
      rw [hunf]
      have ihr := ih st (fun v hv => hsub v (by simp [hv]))
      refine ⟨ihr.1, ihr.2.1, ihr.2.2.1, fun x => ?_⟩
      rw [ihr.2.2.2 x]
      constructor
      · rintro (hin | ⟨v, hv, hvx, hvt⟩)
        · exact Or.inl hin
        · exact Or.inr ⟨v, by simp [hv], hvx, hvt⟩
      · rintro (hin | ⟨v, hv, hvx, hvt⟩)
        · exact Or.inl hin
        · rcases List.mem_cons.mp hv with rfl | hv2
          · exact absurd hvt ht
          · exact Or.inr ⟨v, hv2, hvx, hvt⟩

lemma assignTask_fresh (pubFail : String → Option String) (st : ESState)
    (key : String)
    (hfresh : st.tasks.any (fun u => u._id = task_id_hash st.doc_id key) =
      false)
    (hpub : pubFail (task_id_hash st.doc_id key) = none) :
    assignTask pubFail st key st.doc_id =
    ({ st with
       tasks := st.tasks ++
         [{ _id := task_id_hash st.doc_id key, key := key,
            state := ProcState.QUEUED.value, msg := "Queued" }]
       log := st.log ++
         [Event.createTask (task_id_hash st.doc_id key) key
            ProcState.CREATED.value,
          Event.runInvoked (task_id_hash st.doc_id key),
          Event.updateTask (task_id_hash st.doc_id key)
            ProcState.QUEUED.value "Queued",
          Event.publish (task_id_hash st.doc_id key)] }, none) := by
  have hnotin : ∀ u ∈ st.tasks, ¬(u._id = task_id_hash st.doc_id key) := by
    simpa using List.any_eq_false.mp hfresh
  simp only [assignTask]
  rw [if_neg (by simp), if_neg (by simp [hfresh])]
  have hfind1 : taskFromTaskId
      { st with
        tasks := st.tasks ++
          [{ _id := task_id_hash st.doc_id key, key := key,
             state := ProcState.CREATED.value, msg := "Created" }]
        log := st.log ++
          [Event.createTask (task_id_hash st.doc_id key) key
             ProcState.CREATED.value] }
      (task_id_hash st.doc_id key) =
      some { _id := task_id_hash st.doc_id key, key := key,
             state := ProcState.CREATED.value, msg := "Created" } := by
    simp only [taskFromTaskId, List.find?_append]
    rw [List.find?_eq_none.mpr (by simpa using hnotin)]
    simp
  rw [run_found pubFail _ _ _ hfind1]
  rw [if_pos (Or.inl rfl)]
  rw [queue_task_ok pubFail _ _ hpub]
  refine Prod.ext ?_ rfl
  refine congrArg₂ (fun a b => ESState.mk st.doc_id a b) ?_ (by simp)
  simp only [List.map_append]
  congr 1
  · rw [List.map_congr_left (g := fun a => a) ?_, List.map_id']
    intro u hu
    simp [hnotin u hu]
  · simp

lemma assign_dependencies_nofail (deps : List String) (st : ESState)
    (hfresh : ∀ dep ∈ deps, dep ≠ "" ∧
      task_id_hash st.doc_id dep.toUpper ∉ st.tasks.map TaskRec._id)
    (hnodup : (deps.map
      (fun dep => task_id_hash st.doc_id dep.toUpper)).Nodup) :
    (assign_dependencies noPubFail st deps).2 = none ∧
    (assign_dependencies noPubFail st deps).1.doc_id = st.doc_id ∧
    (∃ newTasks : List TaskRec,
      (assign_dependencies noPubFail st deps).1.tasks =
        st.tasks ++ newTasks ∧
      newTasks.map TaskRec._id =
        deps.map (fun dep => task_id_hash st.doc_id dep.toUpper)) ∧
    ∀ x, (Event.runInvoked x ∈
        (assign_dependencies noPubFail st deps).1.log ↔
      (Event.runInvoked x ∈ st.log ∨
       x ∈ deps.map (fun dep => task_id_hash st.doc_id dep.toUpper))) := by
  induction deps generalizing st with
  | nil =>
    exact ⟨rfl, rfl, ⟨[], by simp [assign_dependencies], rfl⟩,
      fun x => by simp [assign_dependencies]⟩
  | cons dep rest ih =>
    obtain ⟨hne, hid⟩ := hfresh dep (by simp)
    rw [List.map_cons, List.nodup_cons] at hnodup
    have hnotin : ∀ u ∈ st.tasks,
        ¬(u._id = task_id_hash st.doc_id dep.toUpper) := by
      intro u hu hcontra
      exact hid (List.mem_map.mpr ⟨u, hu, hcontra⟩)
    have hA := assignTask_fresh noPubFail st dep.toUpper
      (List.any_eq_false.mpr (by simpa using hnotin)) rfl
    set st2 : ESState :=
      { st with
        tasks := st.tasks ++
          [{ _id := task_id_hash st.doc_id dep.toUpper,
             key := dep.toUpper,
             state := ProcState.QUEUED.value, msg := "Queued" }]
        log := (st.log ++
          [Event.createTask (task_id_hash st.doc_id dep.toUpper)
             dep.toUpper ProcState.CREATED.value,
           Event.runInvoked (task_id_hash st.doc_id dep.toUpper),
           Event.updateTask (task_id_hash st.doc_id dep.toUpper)
             ProcState.QUEUED.value "Queued",
           Event.publish (task_id_hash st.doc_id dep.toUpper)]) ++
          [Event.runInvoked (task_id_hash st.doc_id dep.toUpper)] }
      with hst2def
    have hfind2 : taskFromTaskId
        { st with
          tasks := st.tasks ++
            [{ _id := task_id_hash st.doc_id dep.toUpper, key := dep.toUpper,
               state := ProcState.QUEUED.value, msg := "Queued" }]
          log := st.log ++
            [Event.createTask (task_id_hash st.doc_id dep.toUpper)
               dep.toUpper ProcState.CREATED.value,
             Event.runInvoked (task_id_hash st.doc_id dep.toUpper),
             Event.updateTask (task_id_hash st.doc_id dep.toUpper)
               ProcState.QUEUED.value "Queued",
             Event.publish (task_id_hash st.doc_id dep.toUpper)] }
        (task_id_hash st.doc_id dep.toUpper) =
        some { _id := task_id_hash st.doc_id dep.toUpper, key := dep.toUpper,
               state := ProcState.QUEUED.value, msg := "Queued" } := by
      simp only [taskFromTaskId, List.find?_append]
      rw [List.find?_eq_none.mpr (by simpa using hnotin)]
      simp
    have hrun2 := run_found noPubFail _ _ _ hfind2
    rw [if_neg (by simp [ProcState.value, List.contains])] at hrun2
    have hstep : assign_dependencies noPubFail st (dep :: rest) =
        assign_dependencies noPubFail st2 rest := by
      rw [hst2def]
      simp only [assign_dependencies, List.foldl_cons]
      rw [if_neg hne, hA]
      dsimp only
      rw [hrun2]
    have hdoc2 : st2.doc_id = st.doc_id := by rw [hst2def]
    have hids2 : st2.tasks.map TaskRec._id =
        st.tasks.map TaskRec._id ++ [task_id_hash st.doc_id dep.toUpper] := by
      rw [hst2def]
      simp
    have h1 : ∀ d ∈ rest, d ≠ "" ∧
        task_id_hash st2.doc_id d.toUpper ∉ st2.tasks.map TaskRec._id := by
      intro d hd
      refine ⟨(hfresh d (by simp [hd])).1, ?_⟩
      rw [hdoc2, hids2]
      simp only [List.mem_append, List.mem_singleton]
      push_neg
      refine ⟨fun hmem => (hfresh d (by simp [hd])).2 hmem, ?_⟩
      intro hcontra
      exact hnodup.1 (hcontra ▸ List.mem_map.mpr ⟨d, hd, rfl⟩)
    have h2 : (rest.map
        (fun d => task_id_hash st2.doc_id d.toUpper)).Nodup := by
      rw [hdoc2]
      exact hnodup.2
    have ihr := ih st2 h1 h2
    rw [hstep]
    refine ⟨ihr.1, ihr.2.1.trans hdoc2, ?_, ?_⟩
    · obtain ⟨newRest, hNR, hNRids⟩ := ihr.2.2.1
      refine ⟨{ _id := task_id_hash st.doc_id dep.toUpper, key := dep.toUpper,
                state := ProcState.QUEUED.value, msg := "Queued" } :: newRest,
        ?_, ?_⟩
      · rw [hNR, hst2def]
        simp
      · rw [List.map_cons, hNRids, hdoc2]
        simp
    · intro x
      rw [ihr.2.2.2 x]
      rw [hdoc2]
      have hlog2 : Event.runInvoked x ∈ st2.log ↔
          (Event.runInvoked x ∈ st.log ∨
           x = task_id_hash st.doc_id dep.toUpper) := by
        rw [hst2def]
        simp [or_assoc]
      rw [hlog2]
      simp only [List.map_cons, List.mem_cons]
      constructor
      · rintro ((hin | hx) | hrest)
        · exact Or.inl hin
        · exact Or.inr (Or.inl hx)
        · exact Or.inr (Or.inr hrest)
      · rintro (hin | hx | hrest)
        · exact Or.inl (Or.inl hin)
        · exact Or.inl (Or.inr hx)
        · exact Or.inr hrest

lemma cascadeTrigger_iff (reported : Nat) (task_id : String) (u : TaskRec)
    (hne : u._id ≠ task_id) :
    (cascadeTrigger reported task_id u = true) ↔
      (u.state = ProcState.CREATED.value ∨
       u.state = ProcState.ERROR_INVALID_INPUT.value ∨
       u.state = ProcState.ERROR_PROXY.value ∨
       (u.state = ProcState.UNFINISHED_DEPENDENCY.value ∧
        reported ≠ ProcState.UNFINISHED_DEPENDENCY.value)) := by
  simp only [cascadeTrigger, List.contains, ProcState.value]
  simp [hne, or_assoc]

/-!
Theorems for the frozen claims.
-/

/-- The concrete cascade scenario of the spec test list: one Document with
task A in state SUCCESS, task B in state CREATED and task C in state
UNFINISHED_DEPENDENCY. -/
def cascadeScenario : ESState :=
  { doc_id := "d1"
    tasks := [{ _id := "idA", key := "A",
                state := ProcState.SUCCESS.value, msg := "ok" },
              { _id := "idB", key := "B",
                state := ProcState.CREATED.value, msg := "Created" },
              { _id := "idC", key := "C",
                state := ProcState.UNFINISHED_DEPENDENCY.value,
                msg := "Unfinished dependencies" }]
    log := [] }

/-- Claim C2, counterexample: in the scenario with tasks A (SUCCESS),
B (CREATED) and C (UNFINISHED_DEPENDENCY), a callback reporting A with state
SUCCESS does invoke run on C, because the stored state of C is
UNFINISHED_DEPENDENCY while the reported state 200 differs from
UNFINISHED_DEPENDENCY; the claim asserts that run is not triggered on C. -/
theorem C2_cascade_counterexample :
    Event.runInvoked "idC" ∈
      (callback noPubFail cascadeScenario "idA"
        { state := 200, message := "ok" }).log := by decide

/-- Claim C2, amended: in the scenario with tasks A (SUCCESS), B (CREATED)
and C (UNFINISHED_DEPENDENCY), a callback reporting A with state SUCCESS
invokes run on B and also on C, since the stored state of C is
UNFINISHED_DEPENDENCY while the reported state differs from
UNFINISHED_DEPENDENCY. -/
theorem C2_cascade_amended :
    Event.runInvoked "idB" ∈
      (callback noPubFail cascadeScenario "idA"
        { state := 200, message := "ok" }).log ∧
    Event.runInvoked "idC" ∈
      (callback noPubFail cascadeScenario "idA"
        { state := 200, message := "ok" }).log := by decide

/-- Claim C7, counterexample: a message body that decodes to a JSON object
containing a task section but no document section is acknowledged with a
reply whose state is ERROR (500), not BAD_REQUEST (400) as the claim
asserts; the KeyError raised for the incomplete body is caught by the
generic exception handler, not by the TypeError handler that produces
BAD_REQUEST. -/
theorem C7_malformed_counterexample :
    (inspect_then_run_task [] (ReceivedBody.jsonObject true false true)
        []).ack = true ∧
    ((inspect_then_run_task [] (ReceivedBody.jsonObject true false true)
        []).reply.map WorkerResponse.state) = some ProcState.ERROR.value ∧
    ProcState.ERROR.value ≠ ProcState.BAD_REQUEST.value := by decide

/-- Claim C7, amended: for every received queue message whose body does not
decode to a JSON object containing both a task and a document section, the
worker runtime replies with state ERROR (500) and acknowledges the message,
and never negatively acknowledges it, so a malformed message is never
requeued; BAD_REQUEST is replied only when the body has both sections but
constructing the Task or Document objects raises TypeError. -/
theorem C7_malformed_amended (depends_on : List String)
    (body : ReceivedBody) (assigned : List TaskRec)
    (h : validate_received_data body ≠ ValidationOutcome.valid) :
    (inspect_then_run_task depends_on body assigned).ack = true ∧
    (inspect_then_run_task depends_on body assigned).nack = false ∧
    ((inspect_then_run_task depends_on body assigned).reply.map
      WorkerResponse.state) = some ProcState.ERROR.value := by
  cases body with
  | notJson => exact ⟨rfl, rfl, rfl⟩
  | jsonNonObject => exact ⟨rfl, rfl, rfl⟩
  | jsonObject hasTask hasDocument constructionOk =>
    have hne : ¬(hasTask ∧ hasDocument) := by
      intro hcontra
      exact h (by simp [validate_received_data, hcontra])
    simp [inspect_then_run_task, validate_received_data, hne, ack_and_reply,
      ProcState.value]

/-- Witness for the amended claim C7 at the concrete non-JSON body. -/
theorem C7_malformed_amended_witness :
    (inspect_then_run_task [] ReceivedBody.notJson []).ack = true ∧
    (inspect_then_run_task [] ReceivedBody.notJson []).nack = false ∧
    ((inspect_then_run_task [] ReceivedBody.notJson []).reply.map
      WorkerResponse.state) = some ProcState.ERROR.value :=
  C7_malformed_amended [] ReceivedBody.notJson [] (by decide)

/-- Claim C8: a worker callback that raises RefuseJobException results in a
negative acknowledgement with no acknowledgement, no published reply, no
started callback thread, and no change to the persisted task store. -/
theorem C8_refusal_effects (st : ESState) :
    start_processing_task st CallbackOutcome.refuses =
      (st, { ack := false, nack := true, reply := none,
             spawnedCallback := false }) := rfl

/-- Claim C3: run publishes the task (persisting state QUEUED) exactly when
its current state is CREATED, TASK_RESET, UNFINISHED_DEPENDENCY,
ERROR_INVALID_INPUT or ERROR_PROXY, and for every other state it is a no-op
that performs no publish and no state change. -/
theorem C3_run_gating (pubFail : String → Option String) (st : ESState)
    (task_id : String) (t : TaskRec)
    (hfind : taskFromTaskId st task_id = some t)
    (hpub : pubFail t._id = none) :
    run pubFail st task_id =
      if t.state = ProcState.CREATED.value ∨
         t.state = ProcState.TASK_RESET.value ∨
         t.state = ProcState.UNFINISHED_DEPENDENCY.value ∨
         t.state = ProcState.ERROR_INVALID_INPUT.value ∨
         t.state = ProcState.ERROR_PROXY.value then
        ({ st with
           tasks := st.tasks.map fun u =>
             if u._id = t._id then
               { u with state := ProcState.QUEUED.value, msg := "Queued" }
             else u
           log := st.log ++
             [Event.runInvoked task_id,
              Event.updateTask t._id ProcState.QUEUED.value "Queued",
              Event.publish t._id] }, none)
      else
        ({ st with log := st.log ++ [Event.runInvoked task_id] }, none) := by
  rw [run_found pubFail st task_id t hfind]
  have hlist : ([ProcState.TASK_RESET.value,
      ProcState.UNFINISHED_DEPENDENCY.value,
      ProcState.ERROR_INVALID_INPUT.value,
      ProcState.ERROR_PROXY.value].contains t.state = true) ↔
      (t.state = ProcState.TASK_RESET.value ∨
       t.state = ProcState.UNFINISHED_DEPENDENCY.value ∨
       t.state = ProcState.ERROR_INVALID_INPUT.value ∨
       t.state = ProcState.ERROR_PROXY.value) := by
    simp [List.contains, ProcState.value]
  by_cases hc : t.state = ProcState.CREATED.value ∨
      t.state = ProcState.TASK_RESET.value ∨
      t.state = ProcState.UNFINISHED_DEPENDENCY.value ∨
      t.state = ProcState.ERROR_INVALID_INPUT.value ∨
      t.state = ProcState.ERROR_PROXY.value
  · rw [if_pos ?_, if_pos hc]
    · rw [queue_task_ok pubFail _ t hpub]
      simp
    · rcases hc with h | h
      · exact Or.inl h
      · exact Or.inr (hlist.mpr h)
  · rw [if_neg ?_, if_neg hc]
    · intro hcontra
      rcases hcontra with h | h
      · exact hc (Or.inl h)
      · exact hc (Or.inr (hlist.mp h))

/-- Witness for claim C3: running a concrete task in state CREATED queues
it, and running a concrete task in state SUCCESS changes nothing but the
ghost log. -/
theorem C3_run_gating_witness :
    run noPubFail ⟨"d", [⟨"t1", "A", 201, "Created"⟩], []⟩ "t1" =
      (⟨"d", [⟨"t1", "A", 102, "Queued"⟩],
        [Event.runInvoked "t1", Event.updateTask "t1" 102 "Queued",
         Event.publish "t1"]⟩, none) ∧
    run noPubFail ⟨"d", [⟨"t2", "B", 200, "ok"⟩], []⟩ "t2" =
      (⟨"d", [⟨"t2", "B", 200, "ok"⟩], [Event.runInvoked "t2"]⟩, none) := by
  constructor
  · rw [C3_run_gating noPubFail ⟨"d", [⟨"t1", "A", 201, "Created"⟩], []⟩
      "t1" ⟨"t1", "A", 201, "Created"⟩ rfl rfl]
    decide
  · rw [C3_run_gating noPubFail ⟨"d", [⟨"t2", "B", 200, "ok"⟩], []⟩
      "t2" ⟨"t2", "B", 200, "ok"⟩ rfl rfl]
    decide

/-- Claim C4: retry publishes the task to the queue if and only if force is
set or the current state is neither QUEUED nor SUCCESS; with force it
re-queues a task in every state. -/
theorem C4_retry_gating (pubFail : String → Option String) (st : ESState)
    (task_id : String) (force : Bool) (t : TaskRec)
    (hfind : taskFromTaskId st task_id = some t)
    (hpub : pubFail t._id = none) :
    retry pubFail st task_id force =
      if force = true ∨
         ¬(t.state = ProcState.QUEUED.value ∨
           t.state = ProcState.SUCCESS.value) then
        ({ st with
           tasks := st.tasks.map fun u =>
             if u._id = t._id then
               { u with state := ProcState.QUEUED.value, msg := "Queued" }
             else u
           log := st.log ++
             [Event.updateTask t._id ProcState.QUEUED.value "Queued",
              Event.publish t._id] }, none)
      else
        (st, none) := by
  simp only [retry]
  rw [hfind]
  dsimp only
  have hmem : ([ProcState.QUEUED.value,
      ProcState.SUCCESS.value].contains t.state = true) ↔
      (t.state = ProcState.QUEUED.value ∨
       t.state = ProcState.SUCCESS.value) := by
    simp [List.contains, ProcState.value]
  by_cases hc : force = true ∨
      ¬(t.state = ProcState.QUEUED.value ∨ t.state = ProcState.SUCCESS.value)
  · rw [if_pos hc]
    rw [if_pos ?_]
    · rw [queue_task_ok pubFail st t hpub]
    · rcases hc with h | h
      · exact Or.inr (by simp [h])
      · exact Or.inl (by simpa [hmem] using h)
  · rw [if_neg hc]
    rw [if_neg ?_]
    push_neg at hc
    intro hcontra
    rcases hcontra with h | h
    · exact h (hmem.mpr hc.2)
    · exact hc.1 h

/-- Witness for claim C4: retry with force re-queues a concrete task in
state SUCCESS, and retry without force on the same task is a no-op. -/
theorem C4_retry_gating_witness :
    retry noPubFail ⟨"d", [⟨"t1", "A", 200, "ok"⟩], []⟩ "t1" true =
      (⟨"d", [⟨"t1", "A", 102, "Queued"⟩],
        [Event.updateTask "t1" 102 "Queued", Event.publish "t1"]⟩, none) ∧
    retry noPubFail ⟨"d", [⟨"t1", "A", 200, "ok"⟩], []⟩ "t1" false =
      (⟨"d", [⟨"t1", "A", 200, "ok"⟩], []⟩, none) := by
  constructor
  · rw [C4_retry_gating noPubFail ⟨"d", [⟨"t1", "A", 200, "ok"⟩], []⟩
      "t1" true ⟨"t1", "A", 200, "ok"⟩ rfl rfl]
    decide
  · rw [C4_retry_gating noPubFail ⟨"d", [⟨"t1", "A", 200, "ok"⟩], []⟩
      "t1" false ⟨"t1", "A", 200, "ok"⟩ rfl rfl]
    decide

/-- Claim C10: the queueing step first persists state QUEUED with message
Queued and then publishes; when the publish raises, the task state is set to
ERROR (500) with the exception text, the exception propagates to the
caller, and the stored record ends in state ERROR — never in
NO_ROUTE_TO_QUEUE (422) and not in QUEUED. -/
theorem C10_queue_path (pubFail : String → Option String) (st : ESState)
    (t : TaskRec) :
    (pubFail t._id = none →
      queue_task pubFail st t =
        ({ st with
           tasks := st.tasks.map fun u =>
             if u._id = t._id then
               { u with state := ProcState.QUEUED.value, msg := "Queued" }
             else u
           log := st.log ++
             [Event.updateTask t._id ProcState.QUEUED.value "Queued",
              Event.publish t._id] }, none))
    ∧ (∀ e, pubFail t._id = some e →
      queue_task pubFail st t =
        ({ st with
           tasks := st.tasks.map fun u =>
             if u._id = t._id then
               { u with state := ProcState.ERROR.value, msg := e }
             else u
           log := st.log ++
             [Event.updateTask t._id ProcState.QUEUED.value "Queued",
              Event.updateTask t._id ProcState.ERROR.value e] },
         some (DaneError.publishError e)) ∧
      ∀ u, taskFromTaskId st t._id = some u →
        taskFromTaskId (queue_task pubFail st t).1 t._id =
          some { u with state := ProcState.ERROR.value, msg := e }) := by
  constructor
  · intro hpub
    exact queue_task_ok pubFail st t hpub
  · intro e hpub
    refine ⟨queue_task_fail pubFail st t e hpub, ?_⟩
    intro u hu
    rw [queue_task_fail pubFail st t e hpub]
    simp only [taskFromTaskId] at hu ⊢
    rw [List.find?_map]
    have hpred : ((fun (v : TaskRec) => decide (v._id = t._id)) ∘
        (fun v => if v._id = t._id then
          { v with state := ProcState.ERROR.value, msg := e } else v)) =
        (fun (v : TaskRec) => decide (v._id = t._id)) := by
      funext v
      by_cases h : v._id = t._id <;> simp [h, Function.comp]
    rw [hpred, hu]
    have hid : u._id = t._id := by simpa using List.find?_some hu
    simp [hid]

/-- Witness for claim C10: a concrete failing publish leaves the concrete
task in state ERROR with the exception text and propagates the error. -/
theorem C10_queue_path_witness :
    queue_task (fun _ => some "boom")
        ⟨"d", [⟨"t1", "A", 201, "Created"⟩], []⟩
        ⟨"t1", "A", 201, "Created"⟩ =
      (⟨"d", [⟨"t1", "A", 500, "boom"⟩],
        [Event.updateTask "t1" 102 "Queued",
         Event.updateTask "t1" 500 "boom"]⟩,
       some (DaneError.publishError "boom")) ∧
    taskFromTaskId
      (queue_task (fun _ => some "boom")
        ⟨"d", [⟨"t1", "A", 201, "Created"⟩], []⟩
        ⟨"t1", "A", 201, "Created"⟩).1 "t1" =
      some ⟨"t1", "A", 500, "boom"⟩ := by
  have h := (C10_queue_path (fun _ => some "boom")
      ⟨"d", [⟨"t1", "A", 201, "Created"⟩], []⟩
      ⟨"t1", "A", 201, "Created"⟩).2 "boom" rfl
  refine ⟨?_, ?_⟩
  · rw [h.1]
    decide
  · have h2 := h.2 ⟨"t1", "A", 201, "Created"⟩ rfl
    rw [h2]
    decide

/-- Claim C9: a callback whose reported state is neither SUCCESS nor
UNFINISHED_DEPENDENCY persists the state and message onto the reporting
task and changes nothing else: the task count is unchanged, every other
task record is untouched, and the log shows exactly one field update with
no run, create or publish events. -/
theorem C9_failure_frame (pubFail : String → Option String) (st : ESState)
    (task_id : String) (resp : WorkerResponse) (t : TaskRec)
    (hfind : taskFromTaskId st task_id = some t)
    (h412 : resp.state ≠ ProcState.UNFINISHED_DEPENDENCY.value)
    (h200 : resp.state ≠ ProcState.SUCCESS.value) :
    callback pubFail st task_id resp =
      updateTaskState st task_id resp.state resp.message ∧
    (callback pubFail st task_id resp).tasks.length = st.tasks.length ∧
    (∀ u ∈ st.tasks, u._id ≠ task_id →
      u ∈ (callback pubFail st task_id resp).tasks) ∧
    taskFromTaskId (callback pubFail st task_id resp) task_id =
      some { t with state := resp.state, msg := resp.message } ∧
    (callback pubFail st task_id resp).log =
      st.log ++ [Event.updateTask task_id resp.state resp.message] := by
  have hcb : callback pubFail st task_id resp =
      updateTaskState st task_id resp.state resp.message := by
    simp only [callback]
    rw [hfind]
    dsimp only
    rw [if_neg h412, if_pos h200]
  refine ⟨hcb, ?_, ?_, ?_, ?_⟩
  · rw [hcb]; simp [updateTaskState]
  · intro u hu hne
    rw [hcb]
    simp only [updateTaskState]
    have : (fun v : TaskRec => if v._id = task_id then
        { v with state := resp.state, msg := resp.message } else v) u = u := by
      simp [hne]
    exact this ▸ List.mem_map_of_mem _ hu
  · rw [hcb]
    simp only [updateTaskState, taskFromTaskId] at hfind ⊢
    rw [List.find?_map]
    have hpred : ((fun (v : TaskRec) => decide (v._id = task_id)) ∘
        (fun v => if v._id = task_id then
          { v with state := resp.state, msg := resp.message } else v)) =
        (fun (v : TaskRec) => decide (v._id = task_id)) := by
      funext v
      by_cases h : v._id = task_id <;> simp [h, Function.comp]
    rw [hpred, hfind]
    have hid : t._id = task_id := by simpa using List.find?_some hfind
    simp [hid]
  · rw [hcb]
    simp [updateTaskState]

/-- Witness for claim C9: a concrete failing callback (state 500) updates
only the reporting task and leaves the sibling untouched. -/
theorem C9_failure_frame_witness :
    callback noPubFail ⟨"d", [⟨"a", "A", 102, "Queued"⟩,
        ⟨"b", "B", 201, "Created"⟩], []⟩ "a"
        ⟨500, "broke", []⟩ =
      updateTaskState ⟨"d", [⟨"a", "A", 102, "Queued"⟩,
        ⟨"b", "B", 201, "Created"⟩], []⟩ "a" 500 "broke" ∧
    (callback noPubFail ⟨"d", [⟨"a", "A", 102, "Queued"⟩,
        ⟨"b", "B", 201, "Created"⟩], []⟩ "a"
        ⟨500, "broke", []⟩).tasks.length = 2 ∧
    taskFromTaskId (callback noPubFail ⟨"d", [⟨"a", "A", 102, "Queued"⟩,
        ⟨"b", "B", 201, "Created"⟩], []⟩ "a"
        ⟨500, "broke", []⟩) "a" = some ⟨"a", "A", 500, "broke"⟩ ∧
    (callback noPubFail ⟨"d", [⟨"a", "A", 102, "Queued"⟩,
        ⟨"b", "B", 201, "Created"⟩], []⟩ "a"
        ⟨500, "broke", []⟩).log = [Event.updateTask "a" 500 "broke"] := by
  have h := C9_failure_frame noPubFail
      ⟨"d", [⟨"a", "A", 102, "Queued"⟩, ⟨"b", "B", 201, "Created"⟩], []⟩
      "a" ⟨500, "broke", []⟩ ⟨"a", "A", 102, "Queued"⟩
      rfl (by decide) (by decide)
  exact ⟨h.1, h.2.1, h.2.2.2.1, h.2.2.2.2⟩

/-- Claim C5: assignTask keys the create-or-conflict write on the
deterministic identity derived from document id and task key; a conflict
raises TaskAssignedError and creates nothing, while a fresh assignment
creates exactly one task record with state CREATED and immediately runs it
(queueing it), so assigning the same pair twice succeeds exactly once and at
most one task of the key exists for the Document. -/
theorem C5_assignment_dedup (pubFail : String → Option String)
    (st : ESState) (key : String) :
    (st.tasks.any (fun u => u._id = task_id_hash st.doc_id key) = true →
       assignTask pubFail st key st.doc_id =
         (st, some DaneError.taskAssignedError)) ∧
    (st.tasks.any (fun u => u._id = task_id_hash st.doc_id key) = false →
      pubFail (task_id_hash st.doc_id key) = none →
       assignTask pubFail st key st.doc_id =
         ({ st with
            tasks := st.tasks ++
              [{ _id := task_id_hash st.doc_id key, key := key,
                 state := ProcState.QUEUED.value, msg := "Queued" }]
            log := st.log ++
              [Event.createTask (task_id_hash st.doc_id key) key
                 ProcState.CREATED.value,
               Event.runInvoked (task_id_hash st.doc_id key),
               Event.updateTask (task_id_hash st.doc_id key)
                 ProcState.QUEUED.value "Queued",
               Event.publish (task_id_hash st.doc_id key)] }, none) ∧
       assignTask pubFail (assignTask pubFail st key st.doc_id).1 key
           st.doc_id =
         ((assignTask pubFail st key st.doc_id).1,
          some DaneError.taskAssignedError) ∧
       ((∀ u ∈ st.tasks, u._id = task_id_hash st.doc_id u.key) →
         ((assignTask pubFail st key st.doc_id).1.tasks.filter
            (fun u => u.key = key)).length = 1)) := by
  constructor
  · intro hdup
    simp only [assignTask]
    rw [if_neg (by simp), if_pos hdup]
  · intro hfresh hpub
    have hnotin : ∀ u ∈ st.tasks, ¬(u._id = task_id_hash st.doc_id key) := by
      simpa using List.any_eq_false.mp hfresh
    have hmain := assignTask_fresh pubFail st key hfresh hpub
    refine ⟨hmain, ?_, ?_⟩
    · have hany : ((st.tasks ++
          [({ _id := task_id_hash st.doc_id key, key := key,
              state := ProcState.QUEUED.value, msg := "Queued" } : TaskRec)]).any
          (fun u => u._id = task_id_hash st.doc_id key)) = true := by
        simp
      rw [hmain]
      dsimp only
      simp only [assignTask]
      rw [if_neg (by simp), if_pos hany]
    · intro hwf
      rw [hmain]
      simp only [List.filter_append]
      have hold : st.tasks.filter (fun u => u.key = key) = [] := by
        rw [List.filter_eq_nil_iff]
        intro u hu hkey
        exact hnotin u hu (by rw [hwf u hu]; simp_all)
      rw [hold]
      simp

/-- The loop of check_task_dependencies computed in closed form: the
resulting doneness flag conjoins the incoming flag with per-key
satisfaction, and the missing list extends the accumulator with every key
that has no assigned task, in order. -/
lemma check_deps_loop_spec (assigned : List TaskRec) (task_keys : List String)
    (deps : List String) (done : Bool) (acc : List String) :
    check_deps_loop assigned task_keys deps done acc =
      (done && deps.all (fun dep => task_keys.contains dep &&
         !(assigned.any (fun t =>
             t.key = dep ∧ t.state ≠ ProcState.SUCCESS.value))),
       acc ++ deps.filter (fun dep => !(task_keys.contains dep))) := by
  induction deps generalizing done acc with
  | nil => simp [check_deps_loop]
  | cons dep rest ih =>
    simp only [check_deps_loop]
    by_cases h1 : dep ∈ task_keys
    · have hc : task_keys.contains dep = true := by simpa using h1
      rw [if_neg (by simp [h1])]
      by_cases hdone : done
      · rw [if_pos hdone]
        by_cases h2 : (assigned.any fun t =>
            decide (t.key = dep ∧ t.state ≠ ProcState.SUCCESS.value)) = true
        · rw [if_pos h2, ih]
          rw [List.all_cons, List.filter_cons, hc, h2]
          subst hdone
          simp
        · have h2f : (assigned.any fun t =>
              decide (t.key = dep ∧ t.state ≠ ProcState.SUCCESS.value)) = false := by
            simpa using h2
          rw [if_neg h2, ih]
          rw [List.all_cons, List.filter_cons, hc, h2f]
          subst hdone
          simp
      · have hdf : done = false := by simpa using hdone
        rw [if_neg hdone, ih]
        rw [List.all_cons, List.filter_cons, hc]
        subst hdf
        simp
    · have hc : task_keys.contains dep = false := by simpa using h1
      rw [if_pos (by simp [h1]), ih]
      rw [List.all_cons, List.filter_cons, hc]
      simp [List.append_assoc]

/-- Claim C6: the dependency check reports done exactly when every declared
key has an assigned task and every assigned task of a declared key is in
state SUCCESS, and the returned missing list consists of exactly the
declared keys with no assigned task, every one of them included even after
doneness is refuted. -/
theorem C6_dependency_check (depends_on : List String)
    (assigned : List TaskRec) :
    ((check_task_dependencies depends_on assigned).1 = true ↔
      ((∀ dep ∈ depends_on, dep ∈ assigned.map (fun t => t.key)) ∧
       (∀ t ∈ assigned, t.key ∈ depends_on →
          t.state = ProcState.SUCCESS.value))) ∧
    (check_task_dependencies depends_on assigned).2 =
      depends_on.filter
        (fun dep => !((assigned.map (fun t => t.key)).contains dep)) := by
  cases hD : depends_on with
  | nil => simp [check_task_dependencies]
  | cons d ds =>
    rw [check_task_dependencies, if_pos (by simp), check_deps_loop_spec]
    refine ⟨?_, by simp⟩
    rw [Bool.true_and, List.all_eq_true]
    constructor
    · intro h
      constructor
      · intro dep hd
        have hb := h dep hd
        rw [Bool.and_eq_true] at hb
        simpa using hb.1
      · intro t ht hkD
        have hb := h t.key hkD
        rw [Bool.and_eq_true] at hb
        have ha : (assigned.any fun x =>
            decide (x.key = t.key ∧ x.state ≠ ProcState.SUCCESS.value)) = false := by
          simpa using hb.2
        have hx := List.any_eq_false.mp ha t ht
        by_contra hne
        exact (by simpa using hx : ¬(t.key = t.key ∧
          t.state ≠ ProcState.SUCCESS.value)) ⟨rfl, hne⟩
    · rintro ⟨h1, h2⟩ dep hd
      rw [Bool.and_eq_true]
      refine ⟨by simpa using h1 dep hd, ?_⟩
      have ha : (assigned.any fun x =>
          decide (x.key = dep ∧ x.state ≠ ProcState.SUCCESS.value)) = false := by
        rw [List.any_eq_false]
        intro t ht
        simp only [decide_eq_true_eq, not_and, ne_eq, Decidable.not_not]
        intro hk
        exact h2 t ht (hk ▸ hd)
      simp only [Bool.not_eq_true']
      exact ha

/-- Witness for claim C5: assigning key A to an empty document store
creates and queues one task, and assigning the same key a second time fails
with TaskAssignedError. -/
theorem C5_assignment_dedup_witness :
    assignTask noPubFail ⟨"d", [], []⟩ "A" "d" =
      (⟨"d", [⟨"dA", "A", 102, "Queued"⟩],
        [Event.createTask "dA" "A" 201, Event.runInvoked "dA",
         Event.updateTask "dA" 102 "Queued", Event.publish "dA"]⟩, none) ∧
    assignTask noPubFail (assignTask noPubFail ⟨"d", [], []⟩ "A" "d").1
        "A" "d" =
      ((assignTask noPubFail ⟨"d", [], []⟩ "A" "d").1,
       some DaneError.taskAssignedError) ∧
    ((assignTask noPubFail ⟨"d", [], []⟩ "A" "d").1.tasks.filter
       (fun u => u.key = "A")).length = 1 := by
  have h := (C5_assignment_dedup noPubFail ⟨"d", [], []⟩ "A").2 rfl rfl
  refine ⟨?_, h.2.1, h.2.2 (by simp)⟩
  rw [h.1]
  decide

/-- Claim C1: for a callback whose reported state is SUCCESS, or
UNFINISHED_DEPENDENCY with a nonempty list of fresh dependency keys that
all assign successfully, run is invoked on a sibling task of the Document
if and only if the sibling's stored state is CREATED, ERROR_INVALID_INPUT
or ERROR_PROXY, or its stored state is UNFINISHED_DEPENDENCY while the
reported state differs from UNFINISHED_DEPENDENCY. -/
theorem C1_cascade_trigger (st0 : ESState) (task_id : String)
    (resp : WorkerResponse) (t0 : TaskRec) (sib : TaskRec)
    (hnodup : (st0.tasks.map TaskRec._id).Nodup)
    (hlog : st0.log = [])
    (hfind : taskFromTaskId st0 task_id = some t0)
    (hcase : resp.state = ProcState.SUCCESS.value ∨
      (resp.state = ProcState.UNFINISHED_DEPENDENCY.value ∧
       resp.dependencies ≠ [] ∧
       (∀ dep ∈ resp.dependencies, dep ≠ "" ∧
         task_id_hash st0.doc_id dep.toUpper ∉ st0.tasks.map TaskRec._id) ∧
       (resp.dependencies.map
         (fun dep => task_id_hash st0.doc_id dep.toUpper)).Nodup))
    (hsib : sib ∈ st0.tasks) (hne : sib._id ≠ task_id) :
    (Event.runInvoked sib._id ∈
        (callback noPubFail st0 task_id resp).log ↔
      (sib.state = ProcState.CREATED.value ∨
       sib.state = ProcState.ERROR_INVALID_INPUT.value ∨
       sib.state = ProcState.ERROR_PROXY.value ∨
       (sib.state = ProcState.UNFINISHED_DEPENDENCY.value ∧
        resp.state ≠ ProcState.UNFINISHED_DEPENDENCY.value))) := by
  set st1 := updateTaskState st0 task_id resp.state resp.message with hst1
  have hids1 : st1.tasks.map TaskRec._id = st0.tasks.map TaskRec._id :=
    updateTaskState_ids st0 task_id resp.state resp.message
  have hdoc1 : st1.doc_id = st0.doc_id := rfl
  have hlog1 : st1.log =
      [Event.updateTask task_id resp.state resp.message] := by
    rw [hst1]
    simp [updateTaskState, hlog]
  have hsibid : sib._id ∈ st0.tasks.map TaskRec._id :=
    List.mem_map_of_mem TaskRec._id hsib
  have hsib1 : sib ∈ st1.tasks := by
    rw [hst1]
    simp only [updateTaskState]
    have : (fun v : TaskRec => if v._id = task_id then
        { v with state := resp.state, msg := resp.message } else v) sib =
        sib := by
      simp [hne]
    exact this ▸ List.mem_map_of_mem _ hsib
  have hsnap : ∀ u ∈ st1.tasks, u._id = sib._id → u = sib := by
    intro u hu huid
    rw [hst1] at hu
    simp only [updateTaskState] at hu
    obtain ⟨v, hv, hvu⟩ := List.mem_map.mp hu
    have hvid : v._id = sib._id := by
      by_cases h : v._id = task_id
      · rw [← hvu] at huid
        simp [h] at huid
        exact absurd huid.symm hne
      · rw [← hvu] at huid
        simpa [h] using huid
    have hveq : v = sib :=
      List.inj_on_of_nodup_map hnodup hv hsib hvid
    subst hveq
    by_cases h : v._id = task_id
    · exact absurd (hvid ▸ h) hne
    · rw [← hvu]
      simp [h]
  rcases hcase with h200 | ⟨h412, hdepsne, hfreshdeps, hnodupdeps⟩
  · have hcb : callback noPubFail st0 task_id resp =
        (cascade noPubFail st1 st1.tasks task_id resp.state).1 := by
      simp only [callback]
      rw [hfind]
      dsimp only
      rw [if_neg (by rw [h200]; decide),
        if_neg (by rw [h200]; exact fun h => h rfl)]
    have hcas := cascade_nofail st1.tasks st1 task_id resp.state
      (fun u hu => List.mem_map_of_mem TaskRec._id hu)
    rw [hcb, hcas.2.2.2 sib._id, hlog1]
    have hnotupd : Event.runInvoked sib._id ∉
        [Event.updateTask task_id resp.state resp.message] := by simp
    constructor
    · rintro (hin | ⟨u, hu, huid, hut⟩)
      · exact absurd hin hnotupd
      · have := hsnap u hu huid
        subst this
        exact (cascadeTrigger_iff resp.state task_id u hne).mp hut
    · intro hr
      exact Or.inr ⟨sib, hsib1, rfl,
        (cascadeTrigger_iff resp.state task_id sib hne).mpr hr⟩
  · have hdeps := assign_dependencies_nofail resp.dependencies st1
      (by
        intro dep hd
        refine ⟨(hfreshdeps dep hd).1, ?_⟩
        rw [hdoc1, hids1]
        exact (hfreshdeps dep hd).2)
      (by rw [hdoc1]; exact hnodupdeps)
    have hcb : callback noPubFail st0 task_id resp =
        (cascade noPubFail
          (assign_dependencies noPubFail st1 resp.dependencies).1
          (assign_dependencies noPubFail st1 resp.dependencies).1.tasks
          task_id resp.state).1 := by
      simp only [callback]
      rw [hfind]
      dsimp only
      rw [if_pos h412]
      rw [show assign_dependencies noPubFail st1 resp.dependencies =
          ((assign_dependencies noPubFail st1 resp.dependencies).1, none)
        from Prod.ext rfl hdeps.1]
    obtain ⟨newTasks, hNT, hNTids⟩ := hdeps.2.2.1
    have hcas := cascade_nofail
      (assign_dependencies noPubFail st1 resp.dependencies).1.tasks
      (assign_dependencies noPubFail st1 resp.dependencies).1
      task_id resp.state
      (fun u hu => List.mem_map_of_mem TaskRec._id hu)
    rw [hcb, hcas.2.2.2 sib._id]
    have hsibfresh : sib._id ∉ resp.dependencies.map
        (fun dep => task_id_hash st1.doc_id dep.toUpper) := by
      intro hmem
      obtain ⟨d, hd, hdh⟩ := List.mem_map.mp hmem
      exact (hfreshdeps d hd).2 (by rw [← hdoc1]; exact hdh ▸ hsibid)
    have hlogdep : Event.runInvoked sib._id ∈
        (assign_dependencies noPubFail st1 resp.dependencies).1.log ↔ False := by
      rw [hdeps.2.2.2 sib._id, hlog1]
      simp only [List.mem_singleton, iff_false]
      rintro (hin | hmem)
      · simp at hin
      · exact hsibfresh hmem
    rw [hlogdep]
    constructor
    · rintro (hin | ⟨u, hu, huid, hut⟩)
      · exact absurd hin (by simp)
      · rw [hNT] at hu
        rcases List.mem_append.mp hu with hu1 | hu2
        · have := hsnap u hu1 huid
          subst this
          exact (cascadeTrigger_iff resp.state task_id u hne).mp hut
        · exfalso
          apply hsibfresh
          rw [← hNTids]
          exact huid ▸ List.mem_map_of_mem TaskRec._id hu2
    · intro hr
      refine Or.inr ⟨sib, ?_, rfl,
        (cascadeTrigger_iff resp.state task_id sib hne).mpr hr⟩
      rw [hNT]
      exact List.mem_append_left _ hsib1

/-- Witness for claim C1 at the concrete scenario: sibling B in state
CREATED is triggered by a SUCCESS callback on A. -/
theorem C1_cascade_trigger_witness :
    Event.runInvoked "idB" ∈
        (callback noPubFail cascadeScenario "idA"
          { state := 200, message := "ok" }).log ↔
      ((201 : Nat) = ProcState.CREATED.value ∨
       (201 : Nat) = ProcState.ERROR_INVALID_INPUT.value ∨
       (201 : Nat) = ProcState.ERROR_PROXY.value ∨
       ((201 : Nat) = ProcState.UNFINISHED_DEPENDENCY.value ∧
        (200 : Nat) ≠ ProcState.UNFINISHED_DEPENDENCY.value)) :=
  C1_cascade_trigger cascadeScenario "idA" { state := 200, message := "ok" }
    ⟨"idA", "A", 200, "ok"⟩ ⟨"idB", "B", 201, "Created"⟩
    (by decide) rfl rfl (Or.inl rfl) (by decide) (by decide)

end DANE
